import Mathlib

/-!
# Verification of the miniAIagent conversation core

A shallow embedding of the command-routing and conversation-memory subsystem
of the repository (`agent.py` and the `calculator` leaf of `tools.py`),
together with proofs of the frozen claims about it.

Modelling conventions:
* Python strings are Lean `String`s (char-level operations work on `List Char`).
* `datetime.now()` timestamps are abstract natural-number ticks (seconds),
  threaded as an explicit `now` argument.
* The two `defaultdict` global maps become a `Store` structure of total
  functions; a missing history key and an empty list are indistinguishable
  through the API the code uses, so `history` is total with default `[]`,
  while metadata presence matters (`.get` vs `in`) and is an `Option`.
* The impure leaf tools of `tools.py` (randomness, wall clock, float
  rendering) are exactly what the spec calls external leaf collaborators;
  they enter the embedding as an explicit `ToolEnv` of opaque string
  functions.  The `calculator` leaf is embedded concretely because claims
  depend on it; its operands are exact rationals (Python parses the matched
  digit strings with `float`, which agrees with the exact value on every
  zero test and branch decision the claims mention).
-/

namespace MiniAgent

/-- `MAX_HISTORY_LENGTH = 30` from `agent.py`. -/
def MAX_HISTORY_LENGTH : Nat := 30

/-- The message variants of `langchain_core.messages` used by `agent.py`:
`SystemMessage`, `HumanMessage`, `AIMessage`, each carrying text content. -/
inductive Message where
  | system (content : String)
  | user (content : String)
  | assistant (content : String)
deriving DecidableEq, Repr

/-- `isinstance(msg, SystemMessage)`. -/
def Message.isSystem : Message → Bool
  | .system _ => true
  | _ => false

/-- `isinstance(msg, HumanMessage)`. -/
def Message.isUser : Message → Bool
  | .user _ => true
  | _ => false

/-- `isinstance(msg, AIMessage)`. -/
def Message.isAssistant : Message → Bool
  | .assistant _ => true
  | _ => false

/-- The per-session metadata dict written by `add_to_history`:
`message_count`, `started_at`, `last_activity`. -/
structure Meta where
  message_count : Nat
  started_at : Nat
  last_activity : Nat
deriving DecidableEq, Repr

/-- The two module-level maps `conversation_history` and
`conversation_metadata`, keyed by session id. -/
structure Store where
  history : String → List Message
  metadata : String → Option Meta

/-- The empty store (fresh process state). -/
def Store.empty : Store :=
  { history := fun _ => [], metadata := fun _ => none }

/-- Role dispatch at the top of `add_to_history`: `"user"` builds a
`HumanMessage`, `"assistant"` an `AIMessage`, anything else a
`SystemMessage`. -/
def mkMessage (role content : String) : Message :=
  if role = "user" then .user content
  else if role = "assistant" then .assistant content
  else .system content

/-- `isinstance(lst[0], SystemMessage)` guarded for the empty list. -/
def headIsSystem (l : List Message) : Bool :=
  match l with
  | [] => false
  | m :: _ => m.isSystem

/-- The retention trim at the end of `add_to_history`: when the list exceeds
`MAX_HISTORY_LENGTH`, keep `[lst[0]] + lst[-(MAX_HISTORY_LENGTH-1):]` if the
first element is a system message, else `lst[-MAX_HISTORY_LENGTH:]`.
A Python tail slice `lst[-k:]` is `drop (length - k)`. -/
def trimHistory (l : List Message) : List Message :=
  if l.length > MAX_HISTORY_LENGTH then
    if headIsSystem l then
      l.take 1 ++ l.drop (l.length - (MAX_HISTORY_LENGTH - 1))
    else
      l.drop (l.length - MAX_HISTORY_LENGTH)
  else l

/-- `add_to_history(session_id, role, content)`: append the message, create
or update the metadata (`message_count`/`started_at` initialised on first
touch, then `message_count += 1` and `last_activity = now`), then trim. -/
def addToHistory (store : Store) (sid role content : String) (now : Nat) : Store :=
  let msg := mkMessage role content
  let newHist := store.history sid ++ [msg]
  let meta0 : Meta :=
    match store.metadata sid with
    | none => { message_count := 0, started_at := now, last_activity := now }
    | some m => m
  let meta1 : Meta :=
    { meta0 with message_count := meta0.message_count + 1, last_activity := now }
  { history := fun k => if k = sid then trimHistory newHist else store.history k,
    metadata := fun k => if k = sid then some meta1 else store.metadata k }

/-- `clear_conversation(session_id)`: delete both entries (deleting the
history key is indistinguishable from an empty list for later reads). -/
def clearConversation (store : Store) (sid : String) : Store :=
  { history := fun k => if k = sid then [] else store.history k,
    metadata := fun k => if k = sid then none else store.metadata k }

/-- The observable content of the string `get_conversation_summary` builds:
either the `"No conversation history"` message (empty/absent metadata), or
the reported figures (total `message_count`, user-message and AI-message
counts over the retained window, retained size, whole minutes elapsed). -/
inductive Summary where
  | noHistory
  | stats (total userMsgs aiMsgs stored minutes : Nat)
deriving DecidableEq, Repr

/-- `get_conversation_summary(session_id)` at clock tick `now`. -/
def getConversationSummary (store : Store) (sid : String) (now : Nat) : Summary :=
  match store.metadata sid with
  | none => .noHistory
  | some m =>
      let history := store.history sid
      let userMsgs := (history.filter fun msg => msg.isUser).length
      let aiMsgs := (history.filter fun msg => msg.isAssistant).length
      .stats m.message_count userMsgs aiMsgs history.length ((now - m.started_at) / 60)

/-- A batch of `add_to_history` calls on one session, in order:
each element is (role, content, timestamp). -/
def applyAppends (store : Store) (sid : String) (ops : List (String × String × Nat)) : Store :=
  ops.foldl (fun st op => addToHistory st sid op.1 op.2.1 op.2.2) store

/-! ## Command parser (`parse_command`) -/

/-- Python whitespace in the ASCII range, as used by `str.strip`,
`str.split()` and the regex class `\s`. -/
def isPyWS (c : Char) : Bool :=
  c = ' ' || c = '\t' || c = '\n' || c = '\r' || c = '\x0B' || c = '\x0C'

/-- Python `text.strip()`: remove leading and trailing whitespace. -/
def pyStrip (l : List Char) : List Char :=
  (l.dropWhile isPyWS).rdropWhile isPyWS

/-- Non-whitespace predicate used for the token split. -/
def notWS (c : Char) : Bool := !isPyWS c

/-- Python `text.split(maxsplit=1)` with the default whitespace separator:
skip leading whitespace; if nothing is left there are no parts; otherwise
the first part is the maximal non-whitespace run, and the remainder after
the following whitespace run is the second part when non-empty. -/
def pySplitWS1 (s : List Char) : List (List Char) :=
  if (s.dropWhile isPyWS).isEmpty then []
  else if (((s.dropWhile isPyWS).dropWhile notWS).dropWhile isPyWS).isEmpty then
    [(s.dropWhile isPyWS).takeWhile notWS]
  else
    [(s.dropWhile isPyWS).takeWhile notWS,
     ((s.dropWhile isPyWS).dropWhile notWS).dropWhile isPyWS]

/-- `parse_command(text)` from `agent.py`: strip, split on the first run of
whitespace, lowercase the first token as the command, remainder (or `""`)
as the argument string.  (`str.lower` is modelled by `Char.toLower`, which
agrees on the ASCII command tokens the registry contains.) -/
def parse_command (text : String) : String × String :=
  match pySplitWS1 (pyStrip text.toList) with
  | [] => ("", "")
  | [tok] => (String.mk (tok.map Char.toLower), "")
  | tok :: rest :: _ => (String.mk (tok.map Char.toLower), String.mk rest)

/-! ## Calculator (`tools.calculator` and `handle_calculator`) -/

/-- The keys of the `operations` dict in `tools.calculator`. -/
def opNames : List String := ["add", "subtract", "multiply", "divide", "power", "modulo"]

/-- The observable content of a `calculator` return string: either a
successful computation (rendered by Python as an f-string of the two float
operands, the operator glyph and the float result) or a literal message
string returned verbatim. -/
inductive CalcResult where
  | value (a b : ℚ) (operation : String) (result : ℚ)
  | msg (s : String)
deriving DecidableEq, Repr

/-- Python float `%` for a nonzero modulus: `a - b * floor (a / b)`
(the result carries the sign of the modulus). -/
def qfmod (a b : ℚ) : ℚ := a - b * (Rat.floor (a / b) : ℚ)

/-- Python float `**` on the integer exponents that stay inside exact
arithmetic; fractional or negative exponents are floating-point territory
outside the embedding and default to `0` (no claim depends on a power
value). -/
def qpow (a b : ℚ) : ℚ :=
  if b.den = 1 ∧ 0 ≤ b.num then a ^ b.num.toNat else 0

/-- `tools.calculator(a, b, operation)`: dictionary of operations with
divide/modulo guarded by a zero test that yields the fixed error string;
unknown operations yield the "Unknown operation" message. -/
def calculator (a b : ℚ) (operation : String) : CalcResult :=
  if operation ∈ opNames then
    if operation = "add" then .value a b operation (a + b)
    else if operation = "subtract" then .value a b operation (a - b)
    else if operation = "multiply" then .value a b operation (a * b)
    else if operation = "divide" then
      if b ≠ 0 then .value a b operation (a / b)
      else .msg "Error: Cannot divide by zero"
    else if operation = "power" then .value a b operation (qpow a b)
    else
      if b ≠ 0 then .value a b operation (qfmod a b)
      else .msg "Error: Cannot divide by zero"
  else
    .msg ("Unknown operation: " ++ operation ++
      ". Available: add, subtract, multiply, divide, power, modulo")

/-- The digit run of a `\d+` / `\d*` group, as a natural number. -/
def digitsVal (l : List Char) : Nat :=
  l.foldl (fun acc c => acc * 10 + (c.toNat - '0'.toNat)) 0

/-- Exact value of a matched numeral `\d+\.?\d*` (Python applies `float`,
which rounds to binary floating point; the exact rational agrees with it
on every zero test and branch decision that the claims mention). -/
def numVal (l : List Char) : ℚ :=
  let intPart := l.takeWhile Char.isDigit
  let rest := l.dropWhile Char.isDigit
  match rest with
  | '.' :: frac => (digitsVal intPart : ℚ) + (digitsVal frac : ℚ) / ((10 : ℚ) ^ frac.length)
  | _ => (digitsVal intPart : ℚ)

/-- Match the group `\d+\.?\d*` at the head of `s`, returning the matched
text and the rest.  In the calculator patterns this group is always
followed by `\s*` and an operator character; since neither a digit nor a
dot is whitespace or an operator, no shorter (backtracked) group can ever
succeed where the greedy one fails, so maximal munch is exactly the regex
engine's behaviour. -/
def matchNumber (s : List Char) : Option (List Char × List Char) :=
  let d1 := s.takeWhile Char.isDigit
  let r1 := s.dropWhile Char.isDigit
  if d1.isEmpty then none
  else
    match r1 with
    | '.' :: r2 =>
        let d2 := r2.takeWhile Char.isDigit
        some (d1 ++ '.' :: d2, r2.dropWhile Char.isDigit)
    | _ => some (d1, r1)

/-- Match `(\d+\.?\d*)\s*op\s*(\d+\.?\d*)` anchored at the head of `s`,
returning the two operand groups. -/
def matchArithAt (op : Char) (s : List Char) : Option (List Char × List Char) :=
  match matchNumber s with
  | none => none
  | some (g1, r1) =>
      match r1.dropWhile isPyWS with
      | [] => none
      | c :: r3 =>
          if c = op then
            match matchNumber (r3.dropWhile isPyWS) with
            | some (g2, _) => some (g1, g2)
            | none => none
          else none

/-- `re.search` of the two-operand pattern: try every start position from
the left; the leftmost successful start wins, as in Python. -/
def searchArith (op : Char) : List Char → Option (List Char × List Char)
  | [] => none
  | c :: rest =>
      match matchArithAt op (c :: rest) with
      | some g => some g
      | none => searchArith op rest

/-- The regex/operation pairs of `handle_calculator`, in source order; the
six regexes differ only in their operator character. -/
def opPatterns : List (Char × String) :=
  [('+', "add"), ('-', "subtract"), ('*', "multiply"),
   ('/', "divide"), ('^', "power"), ('%', "modulo")]

/-- The usage string `handle_calculator` returns when no pattern matches
(the source file literally contains the two characters `Ã·` there). -/
def calcUsage : String := "Format: calc [num1] [+/-/*/Ã·/^/%] [num2]"

/-- The `for pattern, operation in patterns` loop of `handle_calculator`:
first pattern with a search hit wins; its two groups are converted to
numbers and passed to `calculator`. -/
def tryPatterns : List (Char × String) → List Char → CalcResult
  | [], _ => .msg calcUsage
  | p :: rest, s =>
      match searchArith p.1 s with
      | some g => calculator (numVal g.1) (numVal g.2) p.2
      | none => tryPatterns rest s

/-- `handle_calculator(args)` from `agent.py`. -/
def handle_calculator (args : String) : CalcResult :=
  tryPatterns opPatterns args.toList

/-! ## Dispatcher (`run_agent`) -/

/-- The content of `get_system_message()`. -/
def systemInstruction : String :=
  "You are a helpful AI assistant with conversation memory and powerful tools.\n" ++
  "You remember the context of our conversation and can reference previous messages.\n\n" ++
  "When users ask questions, use the conversation history to provide contextual, relevant responses.\n" ++
  "You have access to many tools - use them when appropriate to help users effectively.\n\n" ++
  "Be friendly, helpful, and concise in your responses."

/-- The fixed generic reply of the `except` branch of `run_agent`. -/
def errorResponse : String :=
  "I encountered an error processing your request. Please try again."

/-- The command tokens of the `tools` routing dict in `run_agent`, in
source order. -/
def toolCommands : List String :=
  ["calc", "calculate", "hello", "hi", "time", "date", "coin", "flip",
   "dice", "roll", "random", "convert", "count", "password", "pwd",
   "json", "reminder", "help", "tools", "summary", "stats"]

/-- The impure leaf tools of `tools.py` (and the thin argument handlers of
`agent.py` wrapping them), which depend on randomness, the wall clock, or
float/JSON rendering: exactly the external leaf collaborators of the spec.
They are opaque string functions here; no claim constrains their output.
`renderCalc` and `renderSummary` are the f-string renderings (float `repr`,
emoji text) of the structured results the embedding keeps exact. -/
structure ToolEnv where
  say_hello : String → String
  get_time : String → String
  handle_date : String → String
  coin_flip : String
  handle_dice : String → String
  handle_random : String → String
  handle_convert : String → String
  word_counter : String → String
  handle_password : String → String
  json_formatter : String → String
  reminder_format : String → String
  get_tool_list : String
  renderCalc : CalcResult → String
  renderSummary : Summary → String

/-- The reply produced by the matched entry of the `tools` dict.  The
closures capture `args` and `session_id`; the summary branch reads the
store as it stands when the closure runs, i.e. after the user message was
already appended. -/
def toolOutput (env : ToolEnv) (store : Store) (sid command args : String) (now : Nat) : String :=
  if command = "calc" ∨ command = "calculate" then env.renderCalc (handle_calculator args)
  else if command = "hello" ∨ command = "hi" then
    if args ≠ "" then env.say_hello args else "Please provide a name"
  else if command = "time" then env.get_time (if args ≠ "" then args else "local")
  else if command = "date" then env.handle_date args
  else if command = "coin" ∨ command = "flip" then env.coin_flip
  else if command = "dice" ∨ command = "roll" then env.handle_dice args
  else if command = "random" then env.handle_random args
  else if command = "convert" then env.handle_convert args
  else if command = "count" then
    if args ≠ "" then env.word_counter args else "Provide text to count"
  else if command = "password" ∨ command = "pwd" then env.handle_password args
  else if command = "json" then
    if args ≠ "" then env.json_formatter args else "Provide JSON to format"
  else if command = "reminder" then
    if args ≠ "" then env.reminder_format args else "Specify a task"
  else if command = "help" ∨ command = "tools" then env.get_tool_list
  else env.renderSummary (getConversationSummary store sid now)

/-- The message list `run_agent` hands to `model.invoke` on a registry
miss: the retained history, with the fixed system instruction prepended as
a per-call view when the history is empty or does not start with a system
message. -/
def modelView (store : Store) (sid : String) : List Message :=
  let history := store.history sid
  if history.isEmpty || !headIsSystem history then
    Message.system systemInstruction :: history
  else history

/-- `run_agent(user_input, session_id)`.  The model backend is an explicit
parameter returning `none` when `model.invoke` raises or fails; the
`except` branch of the source then produces `errorResponse` and records it.
Every other operation on this path is total, so the embedding is a total
function returning the updated store and the reply. -/
def runAgent (env : ToolEnv) (model : List Message → Option String)
    (store : Store) (userInput sid : String) (now : Nat) : Store × String :=
  let s1 := addToHistory store sid "user" userInput now
  let parsed := parse_command userInput
  if parsed.1 ∈ toolCommands then
    let response := toolOutput env s1 sid parsed.1 parsed.2 now
    (addToHistory s1 sid "assistant" response now, response)
  else
    match model (modelView s1 sid) with
    | some txt => (addToHistory s1 sid "assistant" txt now, txt)
    | none => (addToHistory s1 sid "assistant" errorResponse now, errorResponse)

/-! ## General lemmas about the store operations -/

theorem addToHistory_history_self (store : Store) (sid role content : String) (now : Nat) :
    (addToHistory store sid role content now).history sid
      = trimHistory (store.history sid ++ [mkMessage role content]) := by
  simp [addToHistory]

theorem trimHistory_length (l : List Message) :
    (trimHistory l).length = min l.length MAX_HISTORY_LENGTH := by
  unfold trimHistory
  by_cases hl : l.length > MAX_HISTORY_LENGTH
  · rw [if_pos hl]
    by_cases hs : headIsSystem l
    · rw [if_pos hs]
      simp only [List.length_append, List.length_take, List.length_drop, MAX_HISTORY_LENGTH] at hl ⊢
      omega
    · rw [if_neg hs]
      simp only [List.length_drop, MAX_HISTORY_LENGTH] at hl ⊢
      omega
  · rw [if_neg hl]
    simp only [MAX_HISTORY_LENGTH] at hl ⊢
    omega

theorem trimHistory_sublist (l : List Message) : List.Sublist (trimHistory l) l := by
  unfold trimHistory
  by_cases hl : l.length > MAX_HISTORY_LENGTH
  · rw [if_pos hl]
    by_cases hs : headIsSystem l
    · rw [if_pos hs]
      have htake : (l.take (l.length - (MAX_HISTORY_LENGTH - 1))).take 1 = l.take 1 := by
        rw [List.take_take]
        congr 1
        simp only [MAX_HISTORY_LENGTH] at hl ⊢
        omega
      have h1 : List.Sublist (l.take 1) (l.take (l.length - (MAX_HISTORY_LENGTH - 1))) := by
        rw [← htake]
        exact List.take_sublist _ _
      have h2 := h1.append (List.Sublist.refl (l.drop (l.length - (MAX_HISTORY_LENGTH - 1))))
      rw [List.take_append_drop] at h2
      exact h2
    · rw [if_neg hs]
      exact List.drop_sublist _ _
  · rw [if_neg hl]

theorem trimHistory_head_system (l : List Message) (h : headIsSystem l = true) :
    (trimHistory l).head? = l.head? := by
  unfold trimHistory
  by_cases hl : l.length > MAX_HISTORY_LENGTH
  · rw [if_pos hl, if_pos h]
    cases l with
    | nil => simp [headIsSystem] at h
    | cons a t => simp
  · rw [if_neg hl]

theorem getLast?_drop_of_lt (l : List Message) (k : Nat) (hk : k < l.length) :
    (l.drop k).getLast? = l.getLast? := by
  conv_rhs => rw [← List.take_append_drop k l]
  rw [List.getLast?_append]
  have hne : l.drop k ≠ [] := by
    intro h0
    have := List.drop_eq_nil_iff.mp h0
    omega
  cases hres : (l.drop k).getLast? with
  | none =>
      rw [List.getLast?_eq_none_iff] at hres
      exact absurd hres hne
  | some a => simp

theorem trimHistory_getLast? (l : List Message) :
    (trimHistory l).getLast? = l.getLast? := by
  unfold trimHistory
  by_cases hl : l.length > MAX_HISTORY_LENGTH
  · rw [if_pos hl]
    have hne : l ≠ [] := by
      intro h0
      rw [h0] at hl
      simp [MAX_HISTORY_LENGTH] at hl
    by_cases hs : headIsSystem l
    · rw [if_pos hs, List.getLast?_append,
        getLast?_drop_of_lt l _ (by simp only [MAX_HISTORY_LENGTH] at hl ⊢; omega)]
      cases hg : l.getLast? with
      | none =>
          rw [List.getLast?_eq_none_iff] at hg
          exact absurd hg hne
      | some a => simp
    · rw [if_neg hs]
      exact getLast?_drop_of_lt l _ (by simp only [MAX_HISTORY_LENGTH] at hl ⊢; omega)
  · rw [if_neg hl]

theorem headIsSystem_of_head? (l : List Message) (m : Message) (h : l.head? = some m) :
    headIsSystem l = m.isSystem := by
  cases l with
  | nil => simp at h
  | cons a t =>
      simp only [List.head?_cons, Option.some.injEq] at h
      rw [← h]
      rfl

theorem addToHistory_head_system (store : Store) (sid role content : String) (now : Nat)
    (m : Message) (hh : (store.history sid).head? = some m) (hs : m.isSystem = true) :
    ((addToHistory store sid role content now).history sid).head? = some m := by
  rw [addToHistory_history_self]
  have happ : (store.history sid ++ [mkMessage role content]).head? = some m := by
    rw [List.head?_append, hh]
    rfl
  have hsys : headIsSystem (store.history sid ++ [mkMessage role content]) = true := by
    rw [headIsSystem_of_head? _ m happ]
    exact hs
  rw [trimHistory_head_system _ hsys, happ]

theorem applyAppends_cons (store : Store) (sid : String) (op : String × String × Nat)
    (rest : List (String × String × Nat)) :
    applyAppends store sid (op :: rest)
      = applyAppends (addToHistory store sid op.1 op.2.1 op.2.2) sid rest := rfl

theorem applyAppends_head_system (sid : String) (ops : List (String × String × Nat)) :
    ∀ (store : Store) (m : Message), (store.history sid).head? = some m → m.isSystem = true →
      ((applyAppends store sid ops).history sid).head? = some m := by
  induction ops with
  | nil => intro store m hh _; exact hh
  | cons op rest ih =>
      intro store m hh hs
      rw [applyAppends_cons]
      exact ih _ m (addToHistory_head_system _ _ _ _ _ m hh hs) hs

/-! ## C1: retention bound and trim shape after every append -/

/-- Concrete witness store: one session `"s"` holding a full window of 30
messages whose first element is a system message. -/
def storeC1 : Store :=
  { history := fun k =>
      if k = "s" then Message.system "boot" :: List.replicate 29 (Message.user "m") else [],
    metadata := fun _ => none }

/-- C1: after any `add_to_history` call the retained sequence has length at
most `MAX_HISTORY` (30); the kept messages are a subsequence of the
appended sequence (relative order = append order); when the append does
not exceed the bound nothing is dropped; and when it does, the kept set is
exactly the pre-trim first message followed by the most recent 29 messages
if that first message is system-role, and otherwise exactly the most
recent 30 messages. -/
theorem add_to_history_retention (store : Store) (sid role content : String) (now : Nat)
    (pre : List Message) (hpre : pre = store.history sid ++ [mkMessage role content]) :
    ((addToHistory store sid role content now).history sid).length ≤ MAX_HISTORY_LENGTH ∧
    List.Sublist ((addToHistory store sid role content now).history sid) pre ∧
    (pre.length ≤ MAX_HISTORY_LENGTH →
      (addToHistory store sid role content now).history sid = pre) ∧
    (MAX_HISTORY_LENGTH < pre.length →
      (addToHistory store sid role content now).history sid
        = if headIsSystem pre then
            pre.take 1 ++ pre.drop (pre.length - (MAX_HISTORY_LENGTH - 1))
          else
            pre.drop (pre.length - MAX_HISTORY_LENGTH)) := by
  subst hpre
  rw [addToHistory_history_self]
  refine ⟨?_, trimHistory_sublist _, ?_, ?_⟩
  · rw [trimHistory_length]
    omega
  · intro hle
    unfold trimHistory
    rw [if_neg (by omega)]
  · intro hgt
    unfold trimHistory
    rw [if_pos (by omega)]

/-- Witness for C1 at a concrete full window: the appended list has 31
messages with a system head, and the kept list is that head plus the most
recent 29. -/
theorem add_to_history_retention_witness :
    MAX_HISTORY_LENGTH < (storeC1.history "s" ++ [mkMessage "user" "hi"]).length ∧
    (addToHistory storeC1 "s" "user" "hi" 7).history "s"
      = (storeC1.history "s" ++ [mkMessage "user" "hi"]).take 1 ++
        (storeC1.history "s" ++ [mkMessage "user" "hi"]).drop
          ((storeC1.history "s" ++ [mkMessage "user" "hi"]).length - (MAX_HISTORY_LENGTH - 1)) := by
  have h := add_to_history_retention storeC1 "s" "user" "hi" 7
    (storeC1.history "s" ++ [mkMessage "user" "hi"]) rfl
  refine ⟨by decide, ?_⟩
  rw [h.2.2.2 (by decide), if_pos (by decide)]

/-! ## C2: a leading system message is pinned until `clear` -/

/-- Concrete witness store: session `"s"` whose retained sequence starts
with a system message. -/
def storeC2 : Store :=
  { history := fun k => if k = "s" then [Message.system "inst"] else [],
    metadata := fun _ => none }

/-- Witness appends: 31 further user messages, enough to cross the
retention bound. -/
def opsC2 : List (String × String × Nat) := List.replicate 31 ("user", "m", 0)

/-- C2: once a session's retained sequence has a system message at index 0,
it stays at index 0 of every read after any number of further appends —
in particular past `MAX_HISTORY` — and only `clear` removes it. -/
theorem system_head_stable (store : Store) (sid : String) (m : Message)
    (ops : List (String × String × Nat))
    (hhead : (store.history sid).head? = some m) (hsys : m.isSystem = true) :
    ((applyAppends store sid ops).history sid).head? = some m ∧
    (clearConversation (applyAppends store sid ops) sid).history sid = [] := by
  refine ⟨applyAppends_head_system sid ops store m hhead hsys, ?_⟩
  simp [clearConversation]

/-- Witness for C2: the concrete system message survives 31 appends at
index 0, and `clear` then empties the session. -/
theorem system_head_stable_witness :
    ((applyAppends storeC2 "s" opsC2).history "s").head? = some (Message.system "inst") ∧
    (clearConversation (applyAppends storeC2 "s" opsC2) "s").history "s" = [] :=
  system_head_stable storeC2 "s" (Message.system "inst") opsC2 (by decide) rfl

/-! ## C3: model-backend failure produces the fixed generic reply -/

/-- A trivial instantiation of the leaf-tool collaborators, used only to
instantiate witnesses (no claim constrains these outputs). -/
def envW : ToolEnv :=
  { say_hello := fun _ => "", get_time := fun _ => "", handle_date := fun _ => "",
    coin_flip := "", handle_dice := fun _ => "", handle_random := fun _ => "",
    handle_convert := fun _ => "", word_counter := fun _ => "",
    handle_password := fun _ => "", json_formatter := fun _ => "",
    reminder_format := fun _ => "", get_tool_list := "",
    renderCalc := fun _ => "", renderSummary := fun _ => "" }

/-- C3: on the model path (no tool-token match), if the model backend
invocation fails, `run_agent` returns exactly the fixed generic error
string, the store update is exactly the user append followed by an
assistant append of that same string (no exception escapes: the embedding
is total), and the error string is the last retained message. -/
theorem run_agent_model_failure (env : ToolEnv) (model : List Message → Option String)
    (store : Store) (userInput sid : String) (now : Nat)
    (hmiss : (parse_command userInput).1 ∉ toolCommands)
    (hfail : model (modelView (addToHistory store sid "user" userInput now) sid) = none) :
    (runAgent env model store userInput sid now).2 = errorResponse ∧
    (runAgent env model store userInput sid now).1
      = addToHistory (addToHistory store sid "user" userInput now) sid "assistant"
          errorResponse now ∧
    ((runAgent env model store userInput sid now).1.history sid).getLast?
      = some (Message.assistant errorResponse) := by
  have hrun : runAgent env model store userInput sid now
      = (addToHistory (addToHistory store sid "user" userInput now) sid "assistant"
          errorResponse now, errorResponse) := by
    unfold runAgent
    rw [if_neg hmiss, hfail]
  refine ⟨by rw [hrun], by rw [hrun], ?_⟩
  rw [hrun]
  simp only [addToHistory_history_self (addToHistory store sid "user" userInput now)]
  rw [trimHistory_getLast?]
  have : mkMessage "assistant" errorResponse = Message.assistant errorResponse := rfl
  rw [this]
  simp

/-- Witness for C3: a non-command input with a failing backend yields the
generic error reply, records it, and keeps it as the newest message. -/
theorem run_agent_model_failure_witness :
    (runAgent envW (fun _ => none) Store.empty "what is the capital of France" "s" 3).2
      = errorResponse ∧
    (runAgent envW (fun _ => none) Store.empty "what is the capital of France" "s" 3).1
      = addToHistory (addToHistory Store.empty "s" "user" "what is the capital of France" 3)
          "s" "assistant" errorResponse 3 ∧
    ((runAgent envW (fun _ => none) Store.empty "what is the capital of France" "s" 3).1.history
        "s").getLast? = some (Message.assistant errorResponse) :=
  run_agent_model_failure envW (fun _ => none) Store.empty "what is the capital of France" "s" 3
    (by decide) rfl

/-! ## C4: the injected system instruction is a per-call view only -/

/-- Number of system-role messages in a retained sequence. -/
def countSystem (l : List Message) : Nat := (l.filter fun m => m.isSystem).length

theorem countSystem_trimHistory_le (l : List Message) :
    countSystem (trimHistory l) ≤ countSystem l :=
  ((trimHistory_sublist l).filter _).length_le

theorem countSystem_append_user (l : List Message) (c : String) :
    countSystem (l ++ [mkMessage "user" c]) = countSystem l := by
  have : mkMessage "user" c = Message.user c := rfl
  simp [countSystem, this, List.filter_append, Message.isSystem]

theorem countSystem_append_assistant (l : List Message) (c : String) :
    countSystem (l ++ [mkMessage "assistant" c]) = countSystem l := by
  have : mkMessage "assistant" c = Message.assistant c := rfl
  simp [countSystem, this, List.filter_append, Message.isSystem]

/-- C4: for a session whose retained sequence is empty or does not start
with a system message, a successful model-path `run_agent` call changes the
store by exactly the two appends (user input, then assistant reply); the
system instruction the dispatcher prepends for the model invocation is
never stored — the number of stored system messages does not grow. -/
theorem run_agent_model_success_frame (env : ToolEnv) (model : List Message → Option String)
    (store : Store) (userInput sid : String) (now : Nat) (reply : String)
    (_hnosys : headIsSystem (store.history sid) = false)
    (hmiss : (parse_command userInput).1 ∉ toolCommands)
    (hok : model (modelView (addToHistory store sid "user" userInput now) sid) = some reply) :
    (runAgent env model store userInput sid now).2 = reply ∧
    (runAgent env model store userInput sid now).1
      = addToHistory (addToHistory store sid "user" userInput now) sid "assistant" reply now ∧
    countSystem ((runAgent env model store userInput sid now).1.history sid)
      ≤ countSystem (store.history sid) := by
  have hrun : runAgent env model store userInput sid now
      = (addToHistory (addToHistory store sid "user" userInput now) sid "assistant"
          reply now, reply) := by
    unfold runAgent
    rw [if_neg hmiss, hok]
  refine ⟨by rw [hrun], by rw [hrun], ?_⟩
  rw [hrun]
  simp only [addToHistory_history_self (addToHistory store sid "user" userInput now)]
  calc countSystem (trimHistory ((addToHistory store sid "user" userInput now).history sid
          ++ [mkMessage "assistant" reply]))
      ≤ countSystem ((addToHistory store sid "user" userInput now).history sid
          ++ [mkMessage "assistant" reply]) := countSystem_trimHistory_le _
    _ = countSystem ((addToHistory store sid "user" userInput now).history sid) :=
        countSystem_append_assistant _ _
    _ = countSystem (trimHistory (store.history sid ++ [mkMessage "user" userInput])) := by
        rw [addToHistory_history_self]
    _ ≤ countSystem (store.history sid ++ [mkMessage "user" userInput]) :=
        countSystem_trimHistory_le _
    _ = countSystem (store.history sid) := countSystem_append_user _ _

/-- Witness for C4: a fresh session, a successful backend; the stored
sequence afterwards is exactly the user message and the reply, with no
system message persisted. -/
theorem run_agent_model_success_frame_witness :
    (runAgent envW (fun _ => some "Paris") Store.empty "who are you" "s" 3).2 = "Paris" ∧
    (runAgent envW (fun _ => some "Paris") Store.empty "who are you" "s" 3).1
      = addToHistory (addToHistory Store.empty "s" "user" "who are you" 3)
          "s" "assistant" "Paris" 3 ∧
    countSystem ((runAgent envW (fun _ => some "Paris") Store.empty "who are you" "s" 3).1.history
        "s") ≤ countSystem (Store.empty.history "s") :=
  run_agent_model_success_frame envW (fun _ => some "Paris") Store.empty "who are you" "s" 3
    "Paris" rfl (by decide) rfl

/-! ## C5: the parser contract -/

theorem dropWhile_dropWhile_self (p : Char → Bool) (l : List Char) :
    (l.dropWhile p).dropWhile p = l.dropWhile p := by
  induction l with
  | nil => rfl
  | cons a t ih =>
      by_cases h : p a
      · simp [List.dropWhile_cons, h, ih]
      · simp [List.dropWhile_cons, h]

/-- The result of `pyStrip` never starts with whitespace. -/
theorem pyStrip_dropWhile (l : List Char) :
    (pyStrip l).dropWhile isPyWS = pyStrip l := by
  unfold pyStrip
  cases hs : (l.dropWhile isPyWS).rdropWhile isPyWS with
  | nil => rfl
  | cons c s =>
      obtain ⟨t, ht⟩ := List.rdropWhile_prefix isPyWS (l.dropWhile isPyWS)
      rw [hs] at ht
      have hm : l.dropWhile isPyWS = c :: (s ++ t) := by
        rw [← ht]
        rfl
      have hidem := dropWhile_dropWhile_self isPyWS l
      rw [hm, List.dropWhile_cons] at hidem
      by_cases hc : isPyWS c
      · rw [if_pos hc] at hidem
        have hlen := congrArg List.length hidem
        have hle := (List.dropWhile_suffix isPyWS (l := s ++ t)).length_le
        simp [List.length_append] at hlen hle
        omega
      · rw [List.dropWhile_cons, if_neg hc]

/-- C5: `parse_command` trims, then splits on the first run of whitespace:
the empty (after trim) input yields the empty pair; otherwise the command
is the lowercased maximal leading non-whitespace token (non-empty, free of
whitespace) and the arguments are the remainder after the separating
whitespace run, not trimmed further.  The function is total, so no
exception can escape. -/
theorem parse_command_contract (text : String) :
    (pyStrip text.toList = [] → parse_command text = ("", "")) ∧
    (pyStrip text.toList ≠ [] →
      parse_command text
        = (String.mk (((pyStrip text.toList).takeWhile notWS).map Char.toLower),
           String.mk (((pyStrip text.toList).dropWhile notWS).dropWhile isPyWS)) ∧
      (pyStrip text.toList).takeWhile notWS ≠ [] ∧
      ∀ c ∈ (pyStrip text.toList).takeWhile notWS, isPyWS c = false) := by
  constructor
  · intro h
    unfold parse_command pySplitWS1
    rw [h]
    rfl
  · intro h
    have hdrop := pyStrip_dropWhile text.toList
    obtain ⟨c, s, hcs⟩ : ∃ c s, pyStrip text.toList = c :: s := by
      cases hx : pyStrip text.toList with
      | nil => exact absurd hx h
      | cons c s => exact ⟨c, s, rfl⟩
    have hc : isPyWS c = false := by
      rw [hcs, List.dropWhile_cons] at hdrop
      by_cases hb : isPyWS c
      · rw [if_pos hb] at hdrop
        have hlen := congrArg List.length hdrop
        have := (List.dropWhile_suffix isPyWS (l := s)).length_le
        simp at hlen
        omega
      · exact eq_false_of_ne_true hb
    refine ⟨?_, ?_, ?_⟩
    · have hemp : (pyStrip text.toList).isEmpty = false := by
        rw [hcs]
        rfl
      unfold parse_command pySplitWS1
      rw [hdrop]
      by_cases hrest : (((pyStrip text.toList).dropWhile notWS).dropWhile isPyWS).isEmpty = true
      · have hrest0 : ((pyStrip text.toList).dropWhile notWS).dropWhile isPyWS = [] :=
          List.isEmpty_iff.mp hrest
        simp only [hemp, hrest, if_true, Bool.false_eq_true, if_false, hrest0]
        rfl
      · simp only [hemp, Bool.false_eq_true, if_false, if_neg hrest]
    · rw [hcs, List.takeWhile_cons, notWS, hc]
      simp
    · intro x hx
      have := List.mem_takeWhile_imp hx
      rw [notWS] at this
      simpa using this

/-- Witness for C5 at the spec's own example: `"  calc 2+2  "` parses to
command `"calc"` and argument string `"2+2"`, and `""` parses to the empty
pair. -/
theorem parse_command_contract_witness :
    parse_command "  calc 2+2  " = ("calc", "2+2") ∧ parse_command "" = ("", "") := by
  constructor
  · have h := ((parse_command_contract "  calc 2+2  ").2 (by decide)).1
    rw [h]
    decide
  · exact (parse_command_contract "").1 (by decide)

/-! ## C6: first pattern in priority order wins -/

theorem tryPatterns_hit (ps : List (Char × String)) (s : List Char) :
    ∀ i (hi : i < ps.length) (g1 g2 : List Char),
      (∀ j (hj : j < i), searchArith (ps.get ⟨j, hj.trans hi⟩).1 s = none) →
      searchArith (ps.get ⟨i, hi⟩).1 s = some (g1, g2) →
      tryPatterns ps s = calculator (numVal g1) (numVal g2) (ps.get ⟨i, hi⟩).2 := by
  induction ps with
  | nil =>
      intro i hi
      exact absurd hi (by simp)
  | cons p rest ih =>
      intro i hi g1 g2 hnone hmatch
      cases i with
      | zero =>
          have hm : searchArith p.1 s = some (g1, g2) := hmatch
          unfold tryPatterns
          rw [hm]
          rfl
      | succ i =>
          have h0 : searchArith p.1 s = none := hnone 0 (Nat.succ_pos i)
          have hm : searchArith (rest.get ⟨i, Nat.lt_of_succ_lt_succ hi⟩).1 s
              = some (g1, g2) := hmatch
          unfold tryPatterns
          rw [h0]
          exact (ih i (Nat.lt_of_succ_lt_succ hi) g1 g2
            (fun j hj => hnone (j + 1) (Nat.succ_lt_succ hj)) hm).trans rfl

theorem tryPatterns_miss (ps : List (Char × String)) (s : List Char)
    (h : ∀ p ∈ ps, searchArith p.1 s = none) :
    tryPatterns ps s = CalcResult.msg calcUsage := by
  induction ps with
  | nil => rfl
  | cons p rest ih =>
      unfold tryPatterns
      rw [h p (List.mem_cons_self p rest)]
      exact ih fun q hq => h q (List.mem_cons_of_mem p hq)

/-- C6: the arithmetic handler performs the operation of the first pattern
in the fixed priority order add, subtract, multiply, divide, power, modulo
whose pattern matches anywhere in the argument string (searched, not
anchored), applying `calculator` to the two groups of its leftmost match;
when no pattern matches, it returns the usage string. -/
theorem handle_calculator_priority (args : String) :
    (∀ i (hi : i < opPatterns.length) (g1 g2 : List Char),
      (∀ j (hj : j < i), searchArith (opPatterns.get ⟨j, hj.trans hi⟩).1 args.toList = none) →
      searchArith (opPatterns.get ⟨i, hi⟩).1 args.toList = some (g1, g2) →
      handle_calculator args
        = calculator (numVal g1) (numVal g2) (opPatterns.get ⟨i, hi⟩).2) ∧
    ((∀ p ∈ opPatterns, searchArith p.1 args.toList = none) →
      handle_calculator args = CalcResult.msg calcUsage) := by
  constructor
  · intro i hi g1 g2 hnone hmatch
    exact tryPatterns_hit opPatterns args.toList i hi g1 g2 hnone hmatch
  · intro h
    exact tryPatterns_miss opPatterns args.toList h

/-- Witness for C6 on `"2 * 3 - 4"`: subtract is listed before multiply,
so subtraction wins even though the `*` occurrence is earlier in the
string; and a string without any operand pattern returns the usage text. -/
theorem handle_calculator_priority_witness :
    handle_calculator "2 * 3 - 4" = calculator (numVal ['3']) (numVal ['4']) "subtract" ∧
    handle_calculator "no math here" = CalcResult.msg calcUsage := by
  constructor
  · have h := (handle_calculator_priority "2 * 3 - 4").1 1 (by decide) ['3'] ['4']
      (fun j hj => by
        have hj0 : j = 0 := by omega
        subst hj0
        exact (by decide : searchArith '+' "2 * 3 - 4".toList = none))
      (by decide)
    exact h.trans rfl
  · exact (handle_calculator_priority "no math here").2 (by decide)

/-! ## C7: divide and modulo by zero return the fixed error string -/

/-- C7: with a zero second operand, the divide and modulo operations of
`calculator` return exactly `"Error: Cannot divide by zero"` (no numeric
result, and totality means no exception); in particular the arithmetic
handler on `"10 / 0"` yields that error string. -/
theorem calculator_divide_by_zero (a b : ℚ) (hb : b = 0) :
    calculator a b "divide" = CalcResult.msg "Error: Cannot divide by zero" ∧
    calculator a b "modulo" = CalcResult.msg "Error: Cannot divide by zero" ∧
    handle_calculator "10 / 0" = CalcResult.msg "Error: Cannot divide by zero" := by
  subst hb
  exact ⟨rfl, rfl, by decide⟩

/-- Witness for C7 at `a = 10`, `b = 0`. -/
theorem calculator_divide_by_zero_witness :
    calculator 10 0 "divide" = CalcResult.msg "Error: Cannot divide by zero" ∧
    calculator 10 0 "modulo" = CalcResult.msg "Error: Cannot divide by zero" ∧
    handle_calculator "10 / 0" = CalcResult.msg "Error: Cannot divide by zero" :=
  calculator_divide_by_zero 10 0 rfl

/-! ## C8: `clear` deletes both entries and is idempotent -/

/-- C8: `clear` removes both the message sequence and the metadata of the
session, calling it again (or on a never-seen session: the statement holds
for every store) changes nothing, and `summarize` right after `clear`
reports the no-history message. -/
theorem clear_conversation_idempotent (store : Store) (sid : String) (now : Nat) :
    clearConversation (clearConversation store sid) sid = clearConversation store sid ∧
    (clearConversation store sid).history sid = [] ∧
    (clearConversation store sid).metadata sid = none ∧
    getConversationSummary (clearConversation store sid) sid now = Summary.noHistory := by
  refine ⟨?_, by simp [clearConversation], by simp [clearConversation], ?_⟩
  · show Store.mk _ _ = Store.mk _ _
    congr 1
    · funext k
      by_cases hk : k = sid <;> simp [clearConversation, hk]
    · funext k
      by_cases hk : k = sid <;> simp [clearConversation, hk]
  · unfold getConversationSummary
    simp [clearConversation]

/-! ## C9: `message_count` counts appends, not retained messages -/

theorem addToHistory_metadata_some (store : Store) (sid role content : String) (now : Nat)
    (m : Meta) (h : store.metadata sid = some m) :
    (addToHistory store sid role content now).metadata sid
      = some { m with message_count := m.message_count + 1, last_activity := now } := by
  simp [addToHistory, h]

theorem addToHistory_metadata_none (store : Store) (sid role content : String) (now : Nat)
    (h : store.metadata sid = none) :
    (addToHistory store sid role content now).metadata sid
      = some { message_count := 1, started_at := now, last_activity := now } := by
  simp [addToHistory, h]

theorem addToHistory_history_length (store : Store) (sid role content : String) (now : Nat) :
    ((addToHistory store sid role content now).history sid).length
      = min ((store.history sid).length + 1) MAX_HISTORY_LENGTH := by
  rw [addToHistory_history_self, trimHistory_length, List.length_append]
  rfl

theorem applyAppends_stats (sid : String) (ops : List (String × String × Nat)) :
    ∀ (store : Store) (m : Meta), store.metadata sid = some m →
      (store.history sid).length ≤ MAX_HISTORY_LENGTH →
      ∃ m2, (applyAppends store sid ops).metadata sid = some m2 ∧
        m2.message_count = m.message_count + ops.length ∧
        ((applyAppends store sid ops).history sid).length
          = min ((store.history sid).length + ops.length) MAX_HISTORY_LENGTH := by
  induction ops with
  | nil =>
      intro store m hm hlen
      refine ⟨m, hm, by simp, ?_⟩
      simp only [applyAppends, List.foldl_nil, List.length_nil, Nat.add_zero]
      omega
  | cons op rest ih =>
      intro store m hm hlen
      rw [applyAppends_cons]
      have hstep := addToHistory_metadata_some store sid op.1 op.2.1 op.2.2 m hm
      have hsteplen := addToHistory_history_length store sid op.1 op.2.1 op.2.2
      obtain ⟨m2, hm2, hcount, hlen2⟩ := ih (addToHistory store sid op.1 op.2.1 op.2.2)
        { m with message_count := m.message_count + 1, last_activity := op.2.2 }
        hstep (by rw [hsteplen]; omega)
      refine ⟨m2, hm2, ?_, ?_⟩
      · rw [hcount]
        simp [List.length_cons]
        omega
      · rw [hlen2, hsteplen]
        simp only [List.length_cons, MAX_HISTORY_LENGTH]
        omega

/-- C9: for a freshly created (or cleared) session, after `N` appends the
metadata field `message_count` equals `N` while the retained sequence has
length `min N 30` — trimming never decreases the count — so past 30
appends the count strictly exceeds the retained length, and the summary's
total-message figure exceeds its stored-message figure. -/
theorem message_count_tracks_appends (store : Store) (sid : String)
    (ops : List (String × String × Nat)) (now : Nat)
    (hmeta : store.metadata sid = none) (hhist : store.history sid = []) :
    ((applyAppends store sid ops).history sid).length = min ops.length MAX_HISTORY_LENGTH ∧
    (ops ≠ [] → ∃ m, (applyAppends store sid ops).metadata sid = some m ∧
      m.message_count = ops.length ∧
      (MAX_HISTORY_LENGTH < ops.length →
        ((applyAppends store sid ops).history sid).length < m.message_count) ∧
      ∃ u a mins, getConversationSummary (applyAppends store sid ops) sid now
        = Summary.stats ops.length u a (min ops.length MAX_HISTORY_LENGTH) mins) := by
  cases ops with
  | nil =>
      refine ⟨?_, fun h => absurd rfl h⟩
      show (store.history sid).length = _
      rw [hhist]
      rfl
  | cons op rest =>
      have hstep := addToHistory_metadata_none store sid op.1 op.2.1 op.2.2 hmeta
      have hsteplen : ((addToHistory store sid op.1 op.2.1 op.2.2).history sid).length = 1 := by
        rw [addToHistory_history_length, hhist]
        decide
      obtain ⟨m2, hm2, hcount, hlen2⟩ := applyAppends_stats sid rest
        (addToHistory store sid op.1 op.2.1 op.2.2)
        { message_count := 1, started_at := op.2.2, last_activity := op.2.2 }
        hstep (by rw [hsteplen]; decide)
      rw [hsteplen] at hlen2
      have hstored : ((applyAppends store sid (op :: rest)).history sid).length
          = min (op :: rest).length MAX_HISTORY_LENGTH := by
        rw [applyAppends_cons, hlen2]
        simp only [List.length_cons, MAX_HISTORY_LENGTH]
        omega
      have hcount1 : m2.message_count = (op :: rest).length := by
        rw [hcount]
        simp [List.length_cons]
        omega
      refine ⟨hstored, fun _ => ⟨m2, by rw [applyAppends_cons]; exact hm2, hcount1, ?_, ?_⟩⟩
      · intro hgt
        rw [hstored, hcount1]
        simp only [List.length_cons, MAX_HISTORY_LENGTH] at hgt ⊢
        omega
      · have hsum : getConversationSummary (applyAppends store sid (op :: rest)) sid now
            = Summary.stats m2.message_count
                (((applyAppends store sid (op :: rest)).history sid).filter
                  (fun msg => msg.isUser)).length
                (((applyAppends store sid (op :: rest)).history sid).filter
                  (fun msg => msg.isAssistant)).length
                ((applyAppends store sid (op :: rest)).history sid).length
                ((now - m2.started_at) / 60) := by
          unfold getConversationSummary
          rw [applyAppends_cons, hm2]
        exact ⟨(((applyAppends store sid (op :: rest)).history sid).filter
                  (fun msg => msg.isUser)).length,
               (((applyAppends store sid (op :: rest)).history sid).filter
                  (fun msg => msg.isAssistant)).length,
               (now - m2.started_at) / 60,
               by rw [hsum, hcount1, hstored]⟩

/-- Witness ops for C9: 31 user appends on a fresh session. -/
def opsC9 : List (String × String × Nat) := List.replicate 31 ("user", "m", 0)

/-- Witness for C9: after 31 appends the retained length is 30 while
`message_count` is 31, and the summary reports total 31 against 30
stored. -/
theorem message_count_tracks_appends_witness :
    ((applyAppends Store.empty "s" opsC9).history "s").length
      = min opsC9.length MAX_HISTORY_LENGTH ∧
    ∃ m, (applyAppends Store.empty "s" opsC9).metadata "s" = some m ∧
      m.message_count = opsC9.length ∧
      (MAX_HISTORY_LENGTH < opsC9.length →
        ((applyAppends Store.empty "s" opsC9).history "s").length < m.message_count) ∧
      ∃ u a mins, getConversationSummary (applyAppends Store.empty "s" opsC9) "s" 0
        = Summary.stats opsC9.length u a (min opsC9.length MAX_HISTORY_LENGTH) mins := by
  have h := message_count_tracks_appends Store.empty "s" opsC9 0 rfl rfl
  exact ⟨h.1, h.2 (by decide)⟩

/-! ## C10: unknown roles are stored as system messages -/

/-- C10: a role other than exactly `"user"` and `"assistant"` is stored as
a system-role message without error, and when such a message is the first
of its session it enjoys the retention protection of a system message: it
stays at index 0 through any batch of further appends. -/
theorem nonstandard_role_becomes_system (role content : String)
    (h1 : role ≠ "user") (h2 : role ≠ "assistant")
    (store : Store) (sid : String) (now : Nat) (hfresh : store.history sid = [])
    (ops : List (String × String × Nat)) :
    mkMessage role content = Message.system content ∧
    (addToHistory store sid role content now).history sid = [Message.system content] ∧
    ((applyAppends (addToHistory store sid role content now) sid ops).history sid).head?
      = some (Message.system content) := by
  have hmk : mkMessage role content = Message.system content := by
    unfold mkMessage
    rw [if_neg h1, if_neg h2]
  have hone : (addToHistory store sid role content now).history sid
      = [Message.system content] := by
    rw [addToHistory_history_self, hfresh, hmk]
    rfl
  refine ⟨hmk, hone, ?_⟩
  exact applyAppends_head_system sid ops _ (Message.system content) (by rw [hone]; rfl) rfl

/-- Witness for C10: the role `"tool"` lands as a system message on a
fresh session and survives a later user append at index 0. -/
theorem nonstandard_role_becomes_system_witness :
    mkMessage "tool" "x" = Message.system "x" ∧
    (addToHistory Store.empty "s" "tool" "x" 0).history "s" = [Message.system "x"] ∧
    ((applyAppends (addToHistory Store.empty "s" "tool" "x" 0) "s"
        [("user", "a", 1)]).history "s").head? = some (Message.system "x") :=
  nonstandard_role_becomes_system "tool" "x" (by decide) (by decide)
    Store.empty "s" 0 rfl [("user", "a", 1)]

end MiniAgent
